import Mathlib

/-!
Verification of the AquaScope ATI ICP water-test report parser
(`app/services/ati_parser.py`).  The parser module itself is not part of
the source tree snapshot (only its unit tests are), so the definitions
below are modelled from the repository specification, component by
component, and checked against the behaviour pinned down by the unit
tests in `backend/tests/unit/test_ati_parser.py`.

All report text is modelled as `List Char`; parsed numeric magnitudes are
modelled as exact rationals; fallible operations return `Option`/`Except`
(the Python `ATIParserError` becomes the `Except.error` branch carrying
the message).
-/

set_option autoImplicit false

namespace AquaScope

/-- Report text, labels and messages are lists of characters. -/
abbrev Chars := List Char

/-- Coerce a string literal to the `Chars` representation. -/
def str (s : String) : Chars := s.toList

/-- Whitespace as recognised by the parser (Python `\s` on report text). -/
def isWS (c : Char) : Bool := c == ' ' || c == '\t' || c == '\n' || c == '\r'

/-- Lower-case a chunk of text (Python `str.lower` on ASCII report text). -/
def lowerS (l : Chars) : Chars := l.map Char.toLower

/-- `startsWithL needle hay` : `needle` is an initial segment of `hay`. -/
def startsWithL : Chars → Chars → Bool
  | [], _ => true
  | _ :: _, [] => false
  | a :: as, b :: bs => a == b && startsWithL as bs

/-- `containsL needle hay` : `needle` occurs contiguously inside `hay`
(Python `in` / `re.search` on a literal). -/
def containsL : Chars → Chars → Bool
  | n, [] => n.isEmpty
  | n, h :: t => startsWithL n (h :: t) || containsL n t

/-- Split a character list at every separator selected by `p`;
separators are dropped, empty chunks are kept. -/
def splitOnP (p : Char → Bool) : Chars → List Chars
  | [] => [[]]
  | c :: t =>
    if p c then [] :: splitOnP p t
    else
      match splitOnP p t with
      | [] => [[c]]
      | h :: r => (c :: h) :: r

/-- Split report text into lines (Python `str.splitlines` / `split('\n')`). -/
def splitLines (l : Chars) : List Chars := splitOnP (fun c => c == '\n') l

/-- Whitespace-separated tokens of a line. -/
def tokensOf (l : Chars) : List Chars := (splitOnP isWS l).filter (fun t => !t.isEmpty)

/-- Strip leading and trailing whitespace (Python `str.strip`). -/
def trimL (l : Chars) : Chars :=
  ((l.dropWhile isWS).reverse.dropWhile isWS).reverse

/-- Take the maximal run of decimal digits at the head of the list,
returning the run and the remainder. -/
def takeDigits : Chars → Chars × Chars
  | [] => ([], [])
  | c :: t =>
    if c.isDigit then
      let p := takeDigits t
      (c :: p.1, p.2)
    else ([], c :: t)

/-- Numeric value of a decimal digit character. -/
def digitVal (c : Char) : Nat := c.toNat - 48

/-- Numeric value of a run of decimal digit characters. -/
def natOfDigits (l : Chars) : Nat := l.foldl (fun a c => 10 * a + digitVal c) 0

/-- Join chunks with a separator (Python `sep.join`). -/
def intercalateL (sep : Chars) : List Chars → Chars
  | [] => []
  | [x] => x
  | x :: y :: t => x ++ sep ++ intercalateL sep (y :: t)

/-! ## Date resolver -/

/-- A plain calendar date (year, month, day), the model of Python
`datetime.date` values produced by the parser. -/
structure SimpleDate where
  year : Nat
  month : Nat
  day : Nat
deriving DecidableEq, Repr

/-- Gregorian leap-year rule, the model of Python's calendar check. -/
def isLeapYear (y : Nat) : Bool := (y % 4 == 0 && y % 100 != 0) || y % 400 == 0

/-- Days in a month of a given year (callers also bound the month). -/
def daysInMonth (y m : Nat) : Nat :=
  if m == 2 then (if isLeapYear y then 29 else 28)
  else if m == 4 || m == 6 || m == 9 || m == 11 then 30
  else 31

/-- Calendar validity as enforced by Python `datetime.date`:
year in `1..9999`, month in `1..12`, day within the month. -/
def ValidDate (d : SimpleDate) : Prop :=
  1 ≤ d.year ∧ d.year ≤ 9999 ∧ 1 ≤ d.month ∧ d.month ≤ 12 ∧
    1 ≤ d.day ∧ d.day ≤ daysInMonth d.year d.month

instance (d : SimpleDate) : Decidable (ValidDate d) := by
  unfold ValidDate; infer_instance

/-- Match an ISO `YYYY-MM-DD` shape at the head of the text
(the regex `\d{4}-\d{2}-\d{2}` anchored at this position). -/
def matchISOAt (l : Chars) : Option SimpleDate :=
  match l with
  | a :: b :: c :: d :: s1 :: e :: f :: s2 :: g :: h :: _ =>
    if a.isDigit ∧ b.isDigit ∧ c.isDigit ∧ d.isDigit ∧ s1 = '-' ∧
        e.isDigit ∧ f.isDigit ∧ s2 = '-' ∧ g.isDigit ∧ h.isDigit then
      some ⟨natOfDigits [a, b, c, d], natOfDigits [e, f], natOfDigits [g, h]⟩
    else none
  | _ => none

/-- First ISO-shaped match anywhere in the text (Python `re.search`). -/
def searchISO : Chars → Option SimpleDate
  | [] => none
  | c :: t =>
    match matchISOAt (c :: t) with
    | some d => some d
    | none => searchISO t

/-- Match `\d{1,2}<sep>\d{1,2}<sep>\d{4}` at the head of the text; the
three captured numbers are returned in textual order. -/
def matchSepAt (sep : Char) (l : Chars) : Option (Nat × Nat × Nat) :=
  if 1 ≤ (takeDigits l).1.length ∧ (takeDigits l).1.length ≤ 2 ∧
      (takeDigits l).2.head? = some sep then
    if 1 ≤ (takeDigits (takeDigits l).2.tail).1.length ∧
        (takeDigits (takeDigits l).2.tail).1.length ≤ 2 ∧
        (takeDigits (takeDigits l).2.tail).2.head? = some sep then
      if 4 ≤ (takeDigits (takeDigits (takeDigits l).2.tail).2.tail).1.length then
        some (natOfDigits (takeDigits l).1,
          natOfDigits (takeDigits (takeDigits l).2.tail).1,
          natOfDigits ((takeDigits (takeDigits (takeDigits l).2.tail).2.tail).1.take 4))
      else none
    else none
  else none

/-- First separator-shaped match anywhere in the text (Python `re.search`). -/
def searchSep (sep : Char) : Chars → Option (Nat × Nat × Nat)
  | [] => none
  | c :: t =>
    match matchSepAt sep (c :: t) with
    | some v => some v
    | none => searchSep sep t

/-- US-style `MM/DD/YYYY` search (the lab report default). -/
def searchMDY (l : Chars) : Option SimpleDate :=
  (searchSep '/' l).map (fun v => ⟨v.2.2, v.1, v.2.1⟩)

/-- European `DD.MM.YYYY` search. -/
def searchDMY (l : Chars) : Option SimpleDate :=
  (searchSep '.' l).map (fun v => ⟨v.2.2, v.2.1, v.1⟩)

/-- The "no date" sentinels: empty/blank text, or a lone dash
optionally surrounded by whitespace. -/
def sentinelNoDate (l : Chars) : Bool :=
  decide (trimL l = []) || decide (trimL l = ['-'])

/-- First syntactic match (in the fixed format order) that is also a
valid calendar date; syntactic matches with impossible calendar values
degrade to the next format rather than erroring. -/
def firstValid : List (Option SimpleDate) → Option SimpleDate
  | [] => none
  | none :: r => firstValid r
  | some d :: r => if ValidDate d then some d else firstValid r

/-- Modelled from the spec: the Date Resolver of the missing
`ati_parser.py`.  Recognises the "no date" sentinels, then tries the
three accepted formats in order — ISO `YYYY-MM-DD`, slash `MM/DD/YYYY`,
dot `DD.MM.YYYY` — searching for the pattern anywhere in the text, and
enforces calendar validity; it is total (never an exception). -/
def parse_dateL (l : Chars) : Option SimpleDate :=
  if sentinelNoDate l then none
  else firstValid [searchISO l, searchMDY l, searchDMY l]

/-- Modelled from the spec: `parse_date` of the missing `ati_parser.py`;
an absent token (`None`) resolves to "no date". -/
def parse_date : Option Chars → Option SimpleDate
  | none => none
  | some l => parse_dateL l

/-! ## Element line scanner -/

/-- Assemble a rational from the integer digits, fraction digits and
signed exponent digits of a numeric token:
`(ip.fp) * 10 ^ (±ed)` as one exact fraction. -/
def numFromParts (ip fp : Chars) (eneg : Bool) (ed : Chars) : ℚ :=
  let mant : Nat := natOfDigits ip * 10 ^ fp.length + natOfDigits fp
  let e : Nat := natOfDigits ed
  if eneg then mkRat mant (10 ^ (fp.length + e))
  else mkRat (mant * 10 ^ e) (10 ^ fp.length)

/-- The optional fraction tail `\.?\d*` of a numeric token: the
fraction digits and the remainder of the line. -/
def fracPart (l : Chars) : Chars × Chars :=
  match l with
  | d :: r => if d = '.' then ((takeDigits r).1, (takeDigits r).2) else ([], l)
  | [] => ([], [])

/-- The optional exponent tail `([eE][+-]?\d+)?` of a numeric token:
whether the exponent is negative, and its digits (empty when absent —
an absent exponent multiplies by `10 ^ 0`). -/
def expPart (l : Chars) : Bool × Chars :=
  match l with
  | e :: r =>
    if e = 'e' ∨ e = 'E' then
      match r with
      | s :: r2 =>
        if s = '+' then (false, (takeDigits r2).1)
        else if s = '-' then (true, (takeDigits r2).1)
        else (false, (takeDigits r).1)
      | [] => (false, [])
    else (false, [])
  | [] => (false, [])

/-- Scan for the first digit group anywhere in the line and read a
number in the shape `\d+\.?\d*([eE][+-]?\d+)?` starting there (the
numeric regex of the element line scanner). -/
def scanNumberCore : Chars → Option ℚ
  | [] => none
  | c :: t =>
    if c.isDigit then
      let ip := takeDigits (c :: t)
      let fp := fracPart ip.2
      let ep := expPart fp.2
      some (numFromParts ip.1 fp.1 ep.1 ep.2)
    else scanNumberCore t

/-- A run of one or more dashes: the missing-value sentinel token. -/
def isDashRun (t : Chars) : Bool := !t.isEmpty && t.all (fun c => c == '-')

/-- A token that looks numeric: a dash-run sentinel or a token
containing a digit. -/
def numericLooking (t : Chars) : Bool := isDashRun t || t.any Char.isDigit

/-- First numeric-looking whitespace-separated token of a line. -/
def firstNumTok (l : Chars) : Option Chars := (tokensOf l).find? numericLooking

/-- Modelled from the spec: numeric extraction of the element line
scanner in the missing `ati_parser.py`.  If the first numeric-looking
token is the dash sentinel the value is absent; otherwise the first
digit group found anywhere in the line is read (so an element code that
itself embeds a digit, such as `NO3`, supplies the digit from its own
name — the tolerated edge case flagged by the spec's design notes). -/
def extractValue (l : Chars) : Option ℚ :=
  match firstNumTok l with
  | some t => if isDashRun t then none else scanNumberCore l
  | none => scanNumberCore l

/-- Status phrases in matching order: every multi-word phrase is tried
before the bare `normal`, paired with the produced status tags. -/
def statusTable : List (Chars × Chars) :=
  [ (str ("above normal"), str ("ABOVE_NORMAL"))
  , (str ("below normal"), str ("BELOW_NORMAL"))
  , (str ("critically low"), str ("CRITICALLY_LOW"))
  , (str ("critically high"), str ("CRITICALLY_HIGH"))
  , (str ("slightly low"), str ("SLIGHTLY_LOW"))
  , (str ("slightly high"), str ("SLIGHTLY_HIGH"))
  , (str ("normal"), str ("NORMAL")) ]

/-- Modelled from the spec: status extraction of the element line
scanner — case-insensitive, first matching phrase of `statusTable` wins. -/
def extractStatus (l : Chars) : Option Chars :=
  (statusTable.find? (fun p => containsL p.1 (lowerS l))).map (fun p => p.2)

/-- Modelled from the spec: `extract_value_and_status` of the missing
`ati_parser.py` — one text line to an optional numeric magnitude and an
optional qualitative status tag. -/
def extract_value_and_status (l : Chars) : Option ℚ × Option Chars :=
  (extractValue l, extractStatus l)

/-! ## Score scanner -/

/-- After a label occurrence: an optional colon, arbitrary whitespace,
then one or more digits (the `(:?\s*)(\d+)` tail of the score regex). -/
def scoreAfterLabel (l : Chars) : Option Nat :=
  let r := match l with
    | ':' :: t => t
    | _ => l
  let p := takeDigits (r.dropWhile isWS)
  if p.1.isEmpty then none else some (natOfDigits p.1)

/-- Try the full score pattern anchored at this position of the
(lower-cased) text. -/
def scoreHere (label l : Chars) : Option Nat :=
  if startsWithL label l then scoreAfterLabel (l.drop label.length) else none

/-- First position where the full score pattern matches (Python
`re.search` over the block). -/
def findScoreL (label : Chars) : Chars → Option Nat
  | [] => none
  | c :: t =>
    match scoreHere label (c :: t) with
    | some n => some n
    | none => findScoreL label t

/-- Modelled from the spec: `extract_score` of the missing
`ati_parser.py` — case-insensitive scan for `<label>:?\s*(\d+)`,
returning the integer of the first match, `none` when the pattern never
matches; a score of `0` is a present value, distinct from `none`. -/
def extract_score (text label : Chars) : Option Nat :=
  findScoreL (lowerS label) (lowerS text)

/-! ## Parsed records and the validator -/

/-- Modelled from the spec: the `ParsedRecord` data model (§3), one per
water-sample section found in a document.  The Python implementation
uses one flat dict with `<code>` / `<code>_status` keys; here the
element values and element statuses are the two association lists keyed
by the element codes. -/
structure ParsedRecord where
  lab_name : Option Chars
  test_id : Option Chars
  sample_date : Option SimpleDate
  received_date : Option SimpleDate
  evaluated_date : Option SimpleDate
  test_date : Option SimpleDate
  water_type : Option Chars
  score_major_elements : Option Nat
  score_minor_elements : Option Nat
  score_pollutants : Option Nat
  score_base_elements : Option Nat
  score_overall : Option Nat
  elements : List (Chars × ℚ)
  statuses : List (Chars × Chars)
  recommendations : List Chars
  dosing_instructions : Option Chars
deriving DecidableEq, Repr

/-- Modelled from the spec: the closed element-code vocabulary (§6):
10 major elements, 18 minor/trace elements, 3 nutrients, 10 pollutants
and the two base parameters — 43 codes.  The codes exercised by the
unit tests are fixed; the remaining trace/pollutant codes are the
representative lab panel. -/
def ELEMENT_CODES : List Chars :=
  [ str ("cl"), str ("na"), str ("mg"), str ("s"), str ("ca"), str ("k")
  , str ("br"), str ("sr"), str ("b"), str ("f")
  , str ("li"), str ("si"), str ("i"), str ("ba"), str ("mo"), str ("ni")
  , str ("mn"), str ("fe"), str ("zn"), str ("v"), str ("cr"), str ("co")
  , str ("se"), str ("rb"), str ("sn"), str ("ti"), str ("w"), str ("be")
  , str ("no3"), str ("p"), str ("po4")
  , str ("al"), str ("pb"), str ("cu"), str ("hg"), str ("cd"), str ("as")
  , str ("sb"), str ("ag"), str ("tl"), str ("bi")
  , str ("salinity"), str ("kh") ]

/-- Populated element entries of a record: element values plus element
statuses whose key belongs to the closed vocabulary. -/
def populatedCount (r : ParsedRecord) : Nat :=
  (r.elements.filter (fun p => ELEMENT_CODES.contains p.1)).length +
    (r.statuses.filter (fun p => ELEMENT_CODES.contains p.1)).length

/-- The required document-level fields a record may be missing. -/
def requiredMissing (r : ParsedRecord) : List Chars :=
  (if r.lab_name.isNone then [str ("lab_name")] else []) ++
    (if r.test_date.isNone then [str ("test_date")] else [])

/-- Modelled from the spec: `validate_parsed_data` of the missing
`ati_parser.py`.  Fatal error naming the missing required fields when
`lab_name`/`test_date` is absent; fatal error naming the water type (or
"unknown") when the record has zero populated element entries. -/
def validate_parsed_data (r : ParsedRecord) : Except Chars Unit :=
  if (requiredMissing r).isEmpty then
    if populatedCount r = 0 then
      Except.error (str ("No element data found for ") ++
        (r.water_type.getD (str ("unknown"))) ++ str (" water"))
    else Except.ok ()
  else
    Except.error (str ("Missing required fields: ") ++
      intercalateL (str (", ")) (requiredMissing r))

/-! ## Document segmenter -/

/-- Modelled from the spec: section-header recognition of the Document
Segmenter — a line of the form "Results of <water-type> water",
case-insensitive, with "Salt water" the primary saltwater tag and
"Osmosis water" / "RO water" both the `ro_water` tag. -/
def sectionTypeOf (line : Chars) : Option Chars :=
  let low := lowerS line
  if containsL (str ("results of salt water")) low then some (str ("saltwater"))
  else if containsL (str ("results of osmosis water")) low ||
      containsL (str ("results of ro water")) low then some (str ("ro_water"))
  else none

/-- Split a run of lines at the first section header: the body lines
before it, and the remainder starting with the header (if any). -/
def splitAtHeader : List Chars → List Chars × List Chars
  | [] => ([], [])
  | l :: t =>
    if (sectionTypeOf l).isSome then ([], l :: t)
    else
      let p := splitAtHeader t
      (l :: p.1, p.2)

/-- Structural worker for the segmenter: the fuel bounds the number of
lines still to be examined, so the recursion is structural and the
function evaluates by kernel reduction. -/
def segmentsFuel : Nat → List Chars → List (Chars × List Chars)
  | 0, _ => []
  | _ + 1, [] => []
  | fuel + 1, l :: t =>
    match sectionTypeOf l with
    | some wt => (wt, (splitAtHeader t).1) :: segmentsFuel fuel (splitAtHeader t).2
    | none => segmentsFuel fuel t

/-- Modelled from the spec: the Document Segmenter — every header line
starts a new section whose body runs until the next header or the end
of the document; text before the first header belongs to no section. -/
def segments (ls : List Chars) : List (Chars × List Chars) :=
  segmentsFuel ls.length ls

/-- Modelled from the spec: segmenter fallback — a document with no
section header anywhere is one single section tagged with the primary
saltwater type. -/
def sectionsOf (text : Chars) : List (Chars × List Chars) :=
  match segments (splitLines text) with
  | [] => [(str ("saltwater"), splitLines text)]
  | s :: ss => s :: ss

/-- Number of section-header marker lines in a document. -/
def headerCount (text : Chars) : Nat :=
  ((splitLines text).filter (fun l => (sectionTypeOf l).isSome)).length

/-! ## Section interpreter -/

/-- First line of the document whose lower-cased text contains the
given (lower-case) label. -/
def findLineContaining (needle : Chars) (ls : List Chars) : Option Chars :=
  ls.find? (fun l => containsL needle (lowerS l))

/-- Modelled from the spec: `test_id` resolution via the fixed
"Test ID:" label — the digit run on the first line carrying the label. -/
def docTestId (text : Chars) : Option Chars :=
  match findLineContaining (str ("test id")) (splitLines text) with
  | none => none
  | some l =>
    let p := takeDigits (l.dropWhile (fun c => !c.isDigit))
    if p.1.isEmpty then none else some p.1

/-- Modelled from the spec: a labelled candidate date — the first line
carrying the label, run through the date resolver (which finds a date
pattern anywhere in the line). -/
def labeledDate (label : Chars) (text : Chars) : Option SimpleDate :=
  match findLineContaining label (splitLines text) with
  | none => none
  | some l => parse_dateL l

/-- Modelled from the spec: the filename convention — an accepted
`YYYY-MM-DD` prefix of the source file's base name. -/
def fileNameDate (base : Chars) : Option SimpleDate :=
  match matchISOAt base with
  | some d => if ValidDate d then some d else none
  | none => none

/-- Base name of a file path: the last `/`-separated component. -/
def baseNameOf (path : Chars) : Chars :=
  ((splitOnP (fun c => c == '/') path).getLast?).getD []

/-- Modelled from the spec: the document-level `test_date` resolution
policy, applied once per document — explicit test date, else evaluated
date, else any date-shaped token in the whole document text, else the
filename date. -/
def resolveTestDate (text base : Chars) : Option SimpleDate :=
  match labeledDate (str ("test date")) text with
  | some d => some d
  | none =>
    match labeledDate (str ("evaluated")) text with
    | some d => some d
    | none =>
      match parse_dateL text with
      | some d => some d
      | none => fileNameDate base

/-- An element's text line is located by its code token appearing at
the start of the line (case-insensitive), followed by whitespace or the
end of the line. -/
def elemLineMatches (tok line : Chars) : Bool :=
  let lt := lowerS tok
  let ll := lowerS line
  startsWithL lt ll &&
    (match ll.drop lt.length with
     | [] => true
     | c :: _ => isWS c)

/-- Modelled from the spec: the element vocabulary paired with the
line-start token locating each element's line in the report text. -/
def ELEMENT_PATTERNS : List (Chars × Chars) :=
  [ (str ("salinity"), str ("Sal. total")), (str ("kh"), str ("KH"))
  , (str ("cl"), str ("Cl")), (str ("na"), str ("Na")), (str ("mg"), str ("Mg"))
  , (str ("s"), str ("S")), (str ("ca"), str ("Ca")), (str ("k"), str ("K"))
  , (str ("br"), str ("Br")), (str ("sr"), str ("Sr")), (str ("b"), str ("B"))
  , (str ("f"), str ("F")), (str ("li"), str ("Li")), (str ("si"), str ("Si"))
  , (str ("i"), str ("I")), (str ("ba"), str ("Ba")), (str ("mo"), str ("Mo"))
  , (str ("ni"), str ("Ni")), (str ("mn"), str ("Mn")), (str ("fe"), str ("Fe"))
  , (str ("zn"), str ("Zn")), (str ("v"), str ("V")), (str ("cr"), str ("Cr"))
  , (str ("co"), str ("Co")), (str ("se"), str ("Se")), (str ("rb"), str ("Rb"))
  , (str ("sn"), str ("Sn")), (str ("ti"), str ("Ti")), (str ("w"), str ("W"))
  , (str ("be"), str ("Be")), (str ("no3"), str ("NO3")), (str ("p"), str ("P"))
  , (str ("po4"), str ("PO4")), (str ("al"), str ("Al")), (str ("pb"), str ("Pb"))
  , (str ("cu"), str ("Cu")), (str ("hg"), str ("Hg")), (str ("cd"), str ("Cd"))
  , (str ("as"), str ("As")), (str ("sb"), str ("Sb")), (str ("ag"), str ("Ag"))
  , (str ("tl"), str ("Tl")), (str ("bi"), str ("Bi")) ]

/-- Element values of a section: for each code, the first line starting
with its token, scanned for a numeric value; sentinel dashes yield no
entry. -/
def elementsOf (ls : List Chars) : List (Chars × ℚ) :=
  ELEMENT_PATTERNS.filterMap (fun pat =>
    match ls.find? (fun l => elemLineMatches pat.2 l) with
    | none => none
    | some l => (extractValue l).map (fun v => (pat.1, v)))

/-- Element statuses of a section: captured from the same located line,
independently of whether a numeric value exists. -/
def statusesOf (ls : List Chars) : List (Chars × Chars) :=
  ELEMENT_PATTERNS.filterMap (fun pat =>
    match ls.find? (fun l => elemLineMatches pat.2 l) with
    | none => none
    | some l => (extractStatus l).map (fun s => (pat.1, s)))

/-- Lines following the first line that contains the marker text. -/
def linesAfterMarker (needle : Chars) : List Chars → Option (List Chars)
  | [] => none
  | l :: t =>
    if containsL needle (lowerS l) then some t else linesAfterMarker needle t

/-- Keep the non-blank lines of a block. -/
def nonBlank (ls : List Chars) : List Chars := ls.filter (fun l => !(trimL l).isEmpty)

/-- Modelled from the spec and its unit tests: the recommendations
block — one entry per non-blank line after the "Recommendations" marker
line, up to the end of the section. -/
def recommendationsOf (ls : List Chars) : List Chars :=
  match linesAfterMarker (str ("recommendations")) ls with
  | none => []
  | some t => nonBlank t

/-- Modelled from the spec and its unit tests: the dosing block — the
unit tests index `dosing_instructions` as one single entry carrying a
`text`, so the block's non-blank lines are joined into one free-text
value rather than kept as per-line entries. -/
def dosingOf (ls : List Chars) : Option Chars :=
  match linesAfterMarker (str ("dosing instructions")) ls with
  | none => none
  | some t =>
    let nb := nonBlank t
    if nb.isEmpty then none else some (intercalateL (str ("\n")) nb)

/-- Join section lines back into one block of text for the score scan. -/
def joinLines : List Chars → Chars
  | [] => []
  | [l] => l
  | l :: m :: t => l ++ '\n' :: joinLines (m :: t)

/-- One score-category scan over a section's text. -/
def scoreOf (label : Chars) (ls : List Chars) : Option Nat :=
  extract_score (joinLines ls) label

/-- Modelled from the spec: the Section Interpreter combined with the
shared-metadata propagation of the Parse Orchestrator — document-scoped
metadata (`lab_name`, `test_id`, the three candidate dates and the
resolved `test_date`) is copied onto every section's record, while the
water type, scores, element data and free-text blocks come from the
section's own lines. -/
def buildRecord (text : Chars) (td : SimpleDate) (wt : Chars)
    (ls : List Chars) : ParsedRecord :=
  { lab_name := some (str ("ATI Aquaristik"))
  , test_id := docTestId text
  , sample_date := labeledDate (str ("created")) text
  , received_date := labeledDate (str ("arrived in the laboratory")) text
  , evaluated_date := labeledDate (str ("evaluated")) text
  , test_date := some td
  , water_type := some wt
  , score_major_elements := scoreOf (str ("Major Elements")) ls
  , score_minor_elements := scoreOf (str ("Minor Elements")) ls
  , score_pollutants := scoreOf (str ("Pollutants")) ls
  , score_base_elements := scoreOf (str ("Base Elements")) ls
  , score_overall := scoreOf (str ("Overall")) ls
  , elements := elementsOf ls
  , statuses := statusesOf ls
  , recommendations := recommendationsOf ls
  , dosing_instructions := dosingOf ls }

/-- Validate every candidate record; the first fatal condition aborts
the whole document's parse. -/
def validateAll : List ParsedRecord → Except Chars Unit
  | [] => Except.ok ()
  | r :: t =>
    match validate_parsed_data r with
    | Except.error e => Except.error e
    | Except.ok _ => validateAll t

/-- Modelled from the spec: `parse_ati_pdf` of the missing
`ati_parser.py`, parameterised by the already-extracted report text and
the source file path (the `pdftotext` subprocess that produces the text
is an external collaborator, mocked in every unit test).  Resolves the
shared `test_date` once, builds one record per section, validates each,
and returns the ordered record list or the first fatal error. -/
def parse_ati_pdf (text path : Chars) : Except Chars (List ParsedRecord) :=
  match resolveTestDate text (baseNameOf path) with
  | none => Except.error (str ("Could not extract test date from PDF"))
  | some td =>
    match validateAll ((sectionsOf text).map (fun s => buildRecord text td s.1 s.2)) with
    | Except.error e => Except.error e
    | Except.ok _ => Except.ok ((sectionsOf text).map (fun s => buildRecord text td s.1 s.2))

/-- The record list of a parse result (empty on error). -/
def parseRecs (e : Except Chars (List ParsedRecord)) : List ParsedRecord :=
  match e with
  | Except.ok rs => rs
  | Except.error _ => []

/-- The error message of a parse result, when it failed. -/
def parseErr (e : Except Chars (List ParsedRecord)) : Option Chars :=
  match e with
  | Except.error m => some m
  | Except.ok _ => none

/-- Whether a parse result succeeded. -/
def parseOk (e : Except Chars (List ParsedRecord)) : Bool :=
  match e with
  | Except.ok _ => true
  | Except.error _ => false

/-- The dosing block of a record viewed as a sequence of entries (the
shape the spec claims for it): one entry when present, none otherwise. -/
def dosingEntries (r : ParsedRecord) : List Chars :=
  match r.dosing_instructions with
  | none => []
  | some t => [t]

/-! ## Renderings of calendar dates, used to state format-independence -/

/-- The character of a decimal digit. -/
def dChar (k : Nat) : Char := Char.ofNat (48 + k)

/-- Zero-padded two-digit rendering of a number below `100`. -/
def pad2 (n : Nat) : Chars := [dChar (n / 10 % 10), dChar (n % 10)]

/-- Zero-padded four-digit rendering of a number below `10000`. -/
def pad4 (n : Nat) : Chars :=
  [dChar (n / 1000 % 10), dChar (n / 100 % 10), dChar (n / 10 % 10), dChar (n % 10)]

/-- Minimal (1- or 2-digit) rendering of a number below `100`. -/
def min2 (n : Nat) : Chars := if n < 10 then [dChar (n % 10)] else pad2 n

/-- The ISO `YYYY-MM-DD` text of a date. -/
def renderISO (y m d : Nat) : Chars := pad4 y ++ '-' :: (pad2 m ++ '-' :: pad2 d)

/-- The slash `MM/DD/YYYY` text of a date, minimal month/day digits. -/
def renderMDY (m d y : Nat) : Chars := min2 m ++ '/' :: (min2 d ++ '/' :: pad4 y)

/-- The dot `DD.MM.YYYY` text of a date, minimal day/month digits. -/
def renderDMY (d m y : Nat) : Chars := min2 d ++ '.' :: (min2 m ++ '.' :: pad4 y)

/-! ## Support definitions for the claim statements -/

/-- The six multi-word status phrases, lower-cased as matched. -/
def multiStatusPhrases : List Chars :=
  [ str ("above normal"), str ("below normal"), str ("critically low")
  , str ("critically high"), str ("slightly low"), str ("slightly high") ]

/-- The status tags produced for the six multi-word phrases. -/
def multiStatusTags : List Chars :=
  [ str ("ABOVE_NORMAL"), str ("BELOW_NORMAL"), str ("CRITICALLY_LOW")
  , str ("CRITICALLY_HIGH"), str ("SLIGHTLY_LOW"), str ("SLIGHTLY_HIGH") ]

/-- The message of a validation result (empty on success). -/
def errMsgOf (e : Except Chars Unit) : Chars :=
  match e with
  | Except.error m => m
  | Except.ok _ => []

/-- A record with every field absent/empty, the base for the validator
test inputs. -/
def emptyRecord : ParsedRecord :=
  { lab_name := none, test_id := none, sample_date := none, received_date := none
  , evaluated_date := none, test_date := none, water_type := none
  , score_major_elements := none, score_minor_elements := none
  , score_pollutants := none, score_base_elements := none, score_overall := none
  , elements := [], statuses := [], recommendations := []
  , dosing_instructions := none }

/-- A report whose `Pb` line carries the dash sentinel. -/
def docDashes : Chars :=
  str ("Evaluated: 01/15/2024\nResults of Salt water\nCa            420 mg/l Normal\nPb            --- ug/l Normal")

/-- A report with the three nutrient lines (`NO3`, `P`, `PO4`). -/
def docNutrients : Chars :=
  str ("Evaluated: 01/15/2024\nResults of Salt water\nNO3           2.5 mg/l Normal\nP             0.02 mg/l Normal\nPO4           0.06 mg/l Normal")

/-- A report whose dosing block has two non-blank lines. -/
def docDosing : Chars :=
  str ("Evaluated: 01/15/2024\nResults of Salt water\nCa            420 mg/l Normal\n\nDosing Instructions:\nAdd 5ml of Mg supplement daily\nAdd 2ml of Ca supplement daily\n")

/-- A two-section report sharing one test id and evaluated date. -/
def docMulti : Chars :=
  str ("Test ID: 987654321\nEvaluated: 03/20/2024\n\nResults of Salt water\nCa            415 mg/l Normal\n\nResults of Osmosis water\nSi            10 ug/l Normal\n")

/-- A report with no date anywhere in its body. -/
def docNoDate : Chars :=
  str ("Results of Salt water\nCa            410 mg/l Normal\n")

/-! ## Basic lemmas on characters and digit runs -/

theorem dChar_isDigit {k : Nat} (h : k < 10) : (dChar k).isDigit = true := by
  interval_cases k <;> decide

theorem digitVal_dChar {k : Nat} (h : k < 10) : digitVal (dChar k) = k := by
  interval_cases k <;> decide

theorem isWS_dChar {k : Nat} (h : k < 10) : isWS (dChar k) = false := by
  interval_cases k <;> decide

theorem ne_of_digit_nondigit {a b : Char} (ha : a.isDigit = true)
    (hb : b.isDigit = false) : a ≠ b := by
  intro he; rw [he, hb] at ha; cases ha

theorem isWS_false_of_isDigit {c : Char} (h : c.isDigit = true) : isWS c = false := by
  cases hw : isWS c with
  | false => rfl
  | true =>
    exfalso
    simp only [isWS, Bool.or_eq_true, beq_iff_eq] at hw
    rcases hw with ((h1 | h1) | h1) | h1 <;> (rw [h1] at h; cases h)

theorem takeDigits_cons_digit {c : Char} (t : Chars) (h : c.isDigit = true) :
    takeDigits (c :: t) = (c :: (takeDigits t).1, (takeDigits t).2) := by
  simp [takeDigits, h]

theorem takeDigits_cons_nondigit {c : Char} (t : Chars) (h : c.isDigit = false) :
    takeDigits (c :: t) = ([], c :: t) := by
  simp [takeDigits, h]

theorem takeDigits_digits_append (ds r : Chars) (h : ∀ c ∈ ds, c.isDigit = true) :
    takeDigits (ds ++ r) = (ds ++ (takeDigits r).1, (takeDigits r).2) := by
  induction ds with
  | nil => simp
  | cons c t ih =>
    have hc : c.isDigit = true := h c (List.mem_cons_self c t)
    have ht : ∀ x ∈ t, x.isDigit = true := fun x hx => h x (List.mem_cons_of_mem c hx)
    simp [takeDigits, hc, ih ht]

theorem takeDigits_snd_suffix (l : Chars) : (takeDigits l).2 <:+ l := by
  induction l with
  | nil => exact List.suffix_refl []
  | cons c t ih =>
    by_cases h : c.isDigit = true
    · rw [takeDigits_cons_digit t h]
      exact ih.trans (List.suffix_cons c t)
    · rw [takeDigits_cons_nondigit t (by simpa using h)]

theorem dropWhile_of_all_false {p : Char → Bool} {l : Chars}
    (h : ∀ c ∈ l, p c = false) : l.dropWhile p = l := by
  cases l with
  | nil => rfl
  | cons c t =>
    rw [List.dropWhile_cons, h c (List.mem_cons_self c t)]
    simp

theorem dropWhile_append_of_all_true {p : Char → Bool} {a : Chars} (b : Chars)
    (h : ∀ c ∈ a, p c = true) : (a ++ b).dropWhile p = b.dropWhile p := by
  induction a with
  | nil => simp
  | cons c t ih =>
    rw [List.cons_append, List.dropWhile_cons, h c (List.mem_cons_self c t)]
    exact ih (fun x hx => h x (List.mem_cons_of_mem c hx))

theorem trimL_of_noWS {l : Chars} (h : ∀ c ∈ l, isWS c = false) : trimL l = l := by
  unfold trimL
  rw [dropWhile_of_all_false h,
    dropWhile_of_all_false (fun c hc => h c (List.mem_reverse.mp hc)),
    List.reverse_reverse]

theorem natOfDigits_one (a : Char) : natOfDigits [a] = digitVal a := by
  simp [natOfDigits]

theorem natOfDigits_two (a b : Char) :
    natOfDigits [a, b] = 10 * digitVal a + digitVal b := by
  simp [natOfDigits]

theorem natOfDigits_four (a b c d : Char) :
    natOfDigits [a, b, c, d] =
      1000 * digitVal a + 100 * digitVal b + 10 * digitVal c + digitVal d := by
  simp [natOfDigits]
  ring

theorem natOfDigits_pad2 {n : Nat} (h : n < 100) : natOfDigits (pad2 n) = n := by
  rw [pad2, natOfDigits_two, digitVal_dChar (by omega), digitVal_dChar (by omega)]
  omega

theorem natOfDigits_pad4 {n : Nat} (h : n < 10000) : natOfDigits (pad4 n) = n := by
  rw [pad4, natOfDigits_four, digitVal_dChar (by omega), digitVal_dChar (by omega),
    digitVal_dChar (by omega), digitVal_dChar (by omega)]
  omega

theorem natOfDigits_min2 {n : Nat} (h : n < 100) : natOfDigits (min2 n) = n := by
  rw [min2]
  by_cases h10 : n < 10
  · rw [if_pos h10, natOfDigits_one, digitVal_dChar (by omega)]; omega
  · rw [if_neg h10]; exact natOfDigits_pad2 h

theorem pad2_all_digit (n : Nat) : ∀ c ∈ pad2 n, c.isDigit = true := by
  intro c hc
  simp only [pad2, List.mem_cons, List.not_mem_nil, or_false] at hc
  rcases hc with rfl | rfl <;> exact dChar_isDigit (by omega)

theorem pad4_all_digit (n : Nat) : ∀ c ∈ pad4 n, c.isDigit = true := by
  intro c hc
  simp only [pad4, List.mem_cons, List.not_mem_nil, or_false] at hc
  rcases hc with rfl | rfl | rfl | rfl <;> exact dChar_isDigit (by omega)

theorem min2_all_digit (n : Nat) : ∀ c ∈ min2 n, c.isDigit = true := by
  intro c hc
  rw [min2] at hc
  by_cases h10 : n < 10
  · rw [if_pos h10] at hc
    simp only [List.mem_cons, List.not_mem_nil, or_false] at hc
    subst hc
    exact dChar_isDigit (by omega)
  · rw [if_neg h10] at hc
    exact pad2_all_digit n c hc

theorem min2_length_ge (n : Nat) : 1 ≤ (min2 n).length := by
  rw [min2]; by_cases h : n < 10 <;> simp [h, pad2]

theorem min2_length_le (n : Nat) : (min2 n).length ≤ 2 := by
  rw [min2]; by_cases h : n < 10 <;> simp [h, pad2]

theorem pad4_length (n : Nat) : (pad4 n).length = 4 := by simp [pad4]

/-! ## Lemmas on the date matchers -/

theorem matchISOAt_renderISO {y m d : Nat} (hy : y < 10000) (hm : m < 100)
    (hd : d < 100) : matchISOAt (renderISO y m d) = some ⟨y, m, d⟩ := by
  have e1 : renderISO y m d =
      dChar (y / 1000 % 10) :: dChar (y / 100 % 10) :: dChar (y / 10 % 10) ::
      dChar (y % 10) :: '-' :: dChar (m / 10 % 10) :: dChar (m % 10) :: '-' ::
      dChar (d / 10 % 10) :: dChar (d % 10) :: [] := by
    simp [renderISO, pad4, pad2]
  rw [e1, matchISOAt, if_pos]
  · have h2 : natOfDigits [dChar (y / 1000 % 10), dChar (y / 100 % 10),
        dChar (y / 10 % 10), dChar (y % 10)] = y := natOfDigits_pad4 hy
    have h3 : natOfDigits [dChar (m / 10 % 10), dChar (m % 10)] = m := natOfDigits_pad2 hm
    have h4 : natOfDigits [dChar (d / 10 % 10), dChar (d % 10)] = d := natOfDigits_pad2 hd
    rw [h2, h3, h4]
  · exact ⟨dChar_isDigit (by omega), dChar_isDigit (by omega), dChar_isDigit (by omega),
      dChar_isDigit (by omega), rfl, dChar_isDigit (by omega), dChar_isDigit (by omega),
      rfl, dChar_isDigit (by omega), dChar_isDigit (by omega)⟩

theorem matchISOAt_dash_mem {l : Chars} {v : SimpleDate}
    (h : matchISOAt l = some v) : '-' ∈ l := by
  unfold matchISOAt at h
  split at h
  · rename_i a b c d s1 e f s2 g hh rest
    split at h
    · rename_i hcond
      rcases hcond with ⟨-, -, -, -, h5, -⟩
      subst h5
      simp
    · cases h
  · cases h

theorem searchISO_none_of_no_dash {l : Chars} (h : '-' ∉ l) : searchISO l = none := by
  induction l with
  | nil => rfl
  | cons c t ih =>
    have h1 : matchISOAt (c :: t) = none := by
      cases hm : matchISOAt (c :: t) with
      | none => rfl
      | some v => exact absurd (matchISOAt_dash_mem hm) h
    have h2 : '-' ∉ t := fun hx => h (List.mem_cons_of_mem c hx)
    rw [searchISO, h1]
    exact ih h2

theorem searchISO_cons_of_match {c : Char} {t : Chars} {v : SimpleDate}
    (h : matchISOAt (c :: t) = some v) : searchISO (c :: t) = some v := by
  rw [searchISO, h]

theorem matchSepAt_render {sep : Char} (hsep : sep.isDigit = false)
    {dm dd : Chars} {y : Nat}
    (hdm : ∀ c ∈ dm, c.isDigit = true) (hdd : ∀ c ∈ dd, c.isDigit = true)
    (l1 : 1 ≤ dm.length) (l2 : dm.length ≤ 2)
    (l3 : 1 ≤ dd.length) (l4 : dd.length ≤ 2) (hy : y < 10000) :
    matchSepAt sep (dm ++ sep :: (dd ++ sep :: pad4 y)) =
      some (natOfDigits dm, natOfDigits dd, y) := by
  have h1 : takeDigits (dm ++ sep :: (dd ++ sep :: pad4 y)) =
      (dm, sep :: (dd ++ sep :: pad4 y)) := by
    rw [takeDigits_digits_append _ _ hdm, takeDigits_cons_nondigit _ hsep]
    simp
  have h2 : takeDigits (dd ++ sep :: pad4 y) = (dd, sep :: pad4 y) := by
    rw [takeDigits_digits_append _ _ hdd, takeDigits_cons_nondigit _ hsep]
    simp
  have h3 : takeDigits (pad4 y) = (pad4 y, []) := by
    have := takeDigits_digits_append (pad4 y) [] (pad4_all_digit y)
    simpa using this
  rw [matchSepAt]
  simp only [h1, h2, h3, List.head?_cons, List.tail_cons]
  rw [if_pos ⟨l1, l2, trivial⟩, if_pos ⟨l3, l4, trivial⟩, if_pos (by rw [pad4_length])]
  have h4 : (pad4 y).take 4 = pad4 y := by
    rw [List.take_of_length_le (by rw [pad4_length])]
  rw [h4, natOfDigits_pad4 hy]

theorem matchSepAt_sep_mem {sep : Char} {l : Chars} {v : Nat × Nat × Nat}
    (h : matchSepAt sep l = some v) : sep ∈ l := by
  by_cases h1 : 1 ≤ (takeDigits l).1.length ∧ (takeDigits l).1.length ≤ 2 ∧
      (takeDigits l).2.head? = some sep
  · obtain ⟨-, -, hhead⟩ := h1
    have hmem : sep ∈ (takeDigits l).2 := by
      cases hs : (takeDigits l).2 with
      | nil => rw [hs] at hhead; cases hhead
      | cons a r =>
        rw [hs] at hhead
        simp only [List.head?_cons, Option.some.injEq] at hhead
        rw [← hhead]
        exact List.mem_cons_self a r
    exact (takeDigits_snd_suffix l).subset hmem
  · rw [matchSepAt, if_neg h1] at h
    cases h

theorem searchSep_none_of_no_sep {sep : Char} {l : Chars} (h : sep ∉ l) :
    searchSep sep l = none := by
  induction l with
  | nil => rfl
  | cons c t ih =>
    have h1 : matchSepAt sep (c :: t) = none := by
      cases hm : matchSepAt sep (c :: t) with
      | none => rfl
      | some v => exact absurd (matchSepAt_sep_mem hm) h
    have h2 : sep ∉ t := fun hx => h (List.mem_cons_of_mem c hx)
    rw [searchSep, h1]
    exact ih h2

theorem searchSep_cons_of_match {sep c : Char} {t : Chars} {v : Nat × Nat × Nat}
    (h : matchSepAt sep (c :: t) = some v) : searchSep sep (c :: t) = some v := by
  rw [searchSep, h]

/-- Character classification of the slash/dot rendered strings. -/
theorem mem_sepRender {sep c : Char} {dm dd : Chars} {y : Nat}
    (hdm : ∀ x ∈ dm, x.isDigit = true) (hdd : ∀ x ∈ dd, x.isDigit = true)
    (hc : c ∈ dm ++ sep :: (dd ++ sep :: pad4 y)) :
    c.isDigit = true ∨ c = sep := by
  simp only [List.mem_append, List.mem_cons] at hc
  rcases hc with h | h | h | h | h
  · exact Or.inl (hdm c h)
  · exact Or.inr h
  · exact Or.inl (hdd c h)
  · exact Or.inr h
  · exact Or.inl (pad4_all_digit y c h)

/-- Character classification of the ISO rendered string. -/
theorem mem_isoRender {c : Char} {y m d : Nat} (hc : c ∈ renderISO y m d) :
    c.isDigit = true ∨ c = '-' := by
  simp only [renderISO, List.mem_append, List.mem_cons] at hc
  rcases hc with h | h | h | h | h
  · exact Or.inl (pad4_all_digit y c h)
  · exact Or.inr h
  · exact Or.inl (pad2_all_digit m c h)
  · exact Or.inr h
  · exact Or.inl (pad2_all_digit d c h)

/-! ## Sentinel lemmas -/

theorem sentinelNoDate_false_of {l : Chars} (hl : ∀ c ∈ l, isWS c = false)
    (hne : l ≠ []) (hhd : l.head? ≠ some '-') : sentinelNoDate l = false := by
  cases l with
  | nil => exact absurd rfl hne
  | cons c t =>
    have hc : c ≠ '-' := by
      intro he
      exact hhd (by rw [he]; rfl)
    have ht := trimL_of_noWS hl
    simp [sentinelNoDate, ht, hc]

theorem trimL_ws_dash {w1 w2 : Chars} (h1 : ∀ c ∈ w1, isWS c = true)
    (h2 : ∀ c ∈ w2, isWS c = true) : trimL (w1 ++ '-' :: w2) = ['-'] := by
  unfold trimL
  rw [dropWhile_append_of_all_true _ h1, List.dropWhile_cons]
  have hdash : isWS '-' = false := by decide
  rw [hdash]
  simp only [Bool.false_eq_true, if_false, List.reverse_cons]
  rw [dropWhile_append_of_all_true _ (fun c hc => h2 c (List.mem_reverse.mp hc)),
    List.dropWhile_cons, hdash]
  simp

/-! ## The resolver on each rendered format -/

theorem searchISO_renderISO {y m d : Nat} (hy : y < 10000) (hm : m < 100)
    (hd : d < 100) : searchISO (renderISO y m d) = some ⟨y, m, d⟩ := by
  have e1 : renderISO y m d =
      dChar (y / 1000 % 10) :: (dChar (y / 100 % 10) :: dChar (y / 10 % 10) ::
      dChar (y % 10) :: '-' :: dChar (m / 10 % 10) :: dChar (m % 10) :: '-' ::
      dChar (d / 10 % 10) :: dChar (d % 10) :: []) := by
    simp [renderISO, pad4, pad2]
  have hmatch : matchISOAt (dChar (y / 1000 % 10) :: (dChar (y / 100 % 10) ::
      dChar (y / 10 % 10) :: dChar (y % 10) :: '-' :: dChar (m / 10 % 10) ::
      dChar (m % 10) :: '-' :: dChar (d / 10 % 10) :: dChar (d % 10) :: [])) =
      some ⟨y, m, d⟩ := by
    rw [← e1]
    exact matchISOAt_renderISO hy hm hd
  rw [e1, searchISO, hmatch]

theorem min2_exists_cons (n : Nat) : ∃ c t, min2 n = c :: t := by
  rw [min2]
  by_cases h : n < 10
  · rw [if_pos h]
    exact ⟨_, _, rfl⟩
  · rw [if_neg h, pad2]
    exact ⟨_, _, rfl⟩

theorem searchSep_render {sep : Char} (hsep : sep.isDigit = false)
    {dm dd : Chars} {y : Nat}
    (hdm : ∀ c ∈ dm, c.isDigit = true) (hdd : ∀ c ∈ dd, c.isDigit = true)
    (l1 : 1 ≤ dm.length) (l2 : dm.length ≤ 2)
    (l3 : 1 ≤ dd.length) (l4 : dd.length ≤ 2) (hy : y < 10000) :
    searchSep sep (dm ++ sep :: (dd ++ sep :: pad4 y)) =
      some (natOfDigits dm, natOfDigits dd, y) := by
  have hmatch := matchSepAt_render hsep hdm hdd l1 l2 l3 l4 hy
  cases dm with
  | nil => cases l1
  | cons c t =>
    rw [List.cons_append] at hmatch ⊢
    exact searchSep_cons_of_match hmatch

theorem searchMDY_renderMDY {m d y : Nat} (hm : m < 100) (hd : d < 100)
    (hy : y < 10000) : searchMDY (renderMDY m d y) = some ⟨y, m, d⟩ := by
  have h := searchSep_render (show ('/').isDigit = false by decide)
    (min2_all_digit m) (min2_all_digit d) (min2_length_ge m) (min2_length_le m)
    (min2_length_ge d) (min2_length_le d) hy
  rw [natOfDigits_min2 hm, natOfDigits_min2 hd] at h
  rw [renderMDY, searchMDY, h]
  rfl

theorem searchDMY_renderDMY {d m y : Nat} (hd : d < 100) (hm : m < 100)
    (hy : y < 10000) : searchDMY (renderDMY d m y) = some ⟨y, m, d⟩ := by
  have h := searchSep_render (show ('.').isDigit = false by decide)
    (min2_all_digit d) (min2_all_digit m) (min2_length_ge d) (min2_length_le d)
    (min2_length_ge m) (min2_length_le m) hy
  rw [natOfDigits_min2 hd, natOfDigits_min2 hm] at h
  rw [renderDMY, searchDMY, h]
  rfl

theorem renderISO_sentinel_false (y m d : Nat) :
    sentinelNoDate (renderISO y m d) = false := by
  apply sentinelNoDate_false_of
  · intro c hc
    rcases mem_isoRender hc with h | h
    · exact isWS_false_of_isDigit h
    · rw [h]; decide
  · simp [renderISO, pad4]
  · have e1 : (renderISO y m d).head? = some (dChar (y / 1000 % 10)) := by
      simp [renderISO, pad4]
    rw [e1]
    intro he
    simp only [Option.some.injEq] at he
    exact ne_of_digit_nondigit (dChar_isDigit (by omega)) (by decide) he

theorem renderSep_sentinel_false {sep : Char} (hsepws : isWS sep = false)
    {dm dd : Chars} {y : Nat}
    (hdm : ∀ c ∈ dm, c.isDigit = true) (hdd : ∀ c ∈ dd, c.isDigit = true)
    (l1 : 1 ≤ dm.length) :
    sentinelNoDate (dm ++ sep :: (dd ++ sep :: pad4 y)) = false := by
  apply sentinelNoDate_false_of
  · intro c hc
    rcases mem_sepRender hdm hdd hc with h | h
    · exact isWS_false_of_isDigit h
    · rw [h]; exact hsepws
  · cases dm with
    | nil => cases l1
    | cons c t => simp
  · cases dm with
    | nil => cases l1
    | cons c t =>
      rw [List.cons_append, List.head?_cons]
      intro he
      simp only [Option.some.injEq] at he
      exact ne_of_digit_nondigit (hdm c (List.mem_cons_self c t)) (by decide) he

theorem parse_dateL_renderISO {y m d : Nat} (hy : y < 10000) (hm : m < 100)
    (hd : d < 100) : parse_dateL (renderISO y m d) =
      (if ValidDate ⟨y, m, d⟩ then some ⟨y, m, d⟩ else none) := by
  have hslash : searchMDY (renderISO y m d) = none := by
    rw [searchMDY, searchSep_none_of_no_sep]
    · rfl
    · intro hmem
      rcases mem_isoRender hmem with h | h
      · cases h
      · cases h
  have hdot : searchDMY (renderISO y m d) = none := by
    rw [searchDMY, searchSep_none_of_no_sep]
    · rfl
    · intro hmem
      rcases mem_isoRender hmem with h | h
      · cases h
      · cases h
  rw [parse_dateL, renderISO_sentinel_false]
  simp only [Bool.false_eq_true, if_false]
  rw [searchISO_renderISO hy hm hd, hslash, hdot]
  by_cases hv : ValidDate ⟨y, m, d⟩
  · rw [if_pos hv]
    simp [firstValid, hv]
  · rw [if_neg hv]
    simp [firstValid, hv]

theorem parse_dateL_slash {dm dd : Chars} {m d y : Nat}
    (hdm : ∀ c ∈ dm, c.isDigit = true) (hdd : ∀ c ∈ dd, c.isDigit = true)
    (l1 : 1 ≤ dm.length) (l2 : dm.length ≤ 2)
    (l3 : 1 ≤ dd.length) (l4 : dd.length ≤ 2)
    (hvm : natOfDigits dm = m) (hvd : natOfDigits dd = d) (hy : y < 10000) :
    parse_dateL (dm ++ '/' :: (dd ++ '/' :: pad4 y)) =
      (if ValidDate ⟨y, m, d⟩ then some ⟨y, m, d⟩ else none) := by
  have hiso : searchISO (dm ++ '/' :: (dd ++ '/' :: pad4 y)) = none := by
    apply searchISO_none_of_no_dash
    intro hmem
    rcases mem_sepRender hdm hdd hmem with h | h
    · cases h
    · cases h
  have hdot : searchDMY (dm ++ '/' :: (dd ++ '/' :: pad4 y)) = none := by
    rw [searchDMY, searchSep_none_of_no_sep]
    · rfl
    · intro hmem
      rcases mem_sepRender hdm hdd hmem with h | h
      · cases h
      · cases h
  have hslash : searchMDY (dm ++ '/' :: (dd ++ '/' :: pad4 y)) = some ⟨y, m, d⟩ := by
    have h := searchSep_render (show ('/').isDigit = false by decide) hdm hdd l1 l2 l3 l4 hy
    rw [hvm, hvd] at h
    rw [searchMDY, h]
    rfl
  have hsent : sentinelNoDate (dm ++ '/' :: (dd ++ '/' :: pad4 y)) = false :=
    renderSep_sentinel_false (by decide) hdm hdd l1
  rw [parse_dateL, hsent]
  simp only [Bool.false_eq_true, if_false]
  rw [hiso, hslash, hdot]
  by_cases hv : ValidDate ⟨y, m, d⟩
  · rw [if_pos hv]
    simp [firstValid, hv]
  · rw [if_neg hv]
    simp [firstValid, hv]

theorem parse_dateL_dot {dd dm : Chars} {d m y : Nat}
    (hdd : ∀ c ∈ dd, c.isDigit = true) (hdm : ∀ c ∈ dm, c.isDigit = true)
    (l1 : 1 ≤ dd.length) (l2 : dd.length ≤ 2)
    (l3 : 1 ≤ dm.length) (l4 : dm.length ≤ 2)
    (hvd : natOfDigits dd = d) (hvm : natOfDigits dm = m) (hy : y < 10000) :
    parse_dateL (dd ++ '.' :: (dm ++ '.' :: pad4 y)) =
      (if ValidDate ⟨y, m, d⟩ then some ⟨y, m, d⟩ else none) := by
  have hiso : searchISO (dd ++ '.' :: (dm ++ '.' :: pad4 y)) = none := by
    apply searchISO_none_of_no_dash
    intro hmem
    rcases mem_sepRender hdd hdm hmem with h | h
    · cases h
    · cases h
  have hslash : searchMDY (dd ++ '.' :: (dm ++ '.' :: pad4 y)) = none := by
    rw [searchMDY, searchSep_none_of_no_sep]
    · rfl
    · intro hmem
      rcases mem_sepRender hdd hdm hmem with h | h
      · cases h
      · cases h
  have hdot : searchDMY (dd ++ '.' :: (dm ++ '.' :: pad4 y)) = some ⟨y, m, d⟩ := by
    have h := searchSep_render (show ('.').isDigit = false by decide) hdd hdm l1 l2 l3 l4 hy
    rw [hvd, hvm] at h
    rw [searchDMY, h]
    rfl
  have hsent : sentinelNoDate (dd ++ '.' :: (dm ++ '.' :: pad4 y)) = false :=
    renderSep_sentinel_false (by decide) hdd hdm l1
  rw [parse_dateL, hsent]
  simp only [Bool.false_eq_true, if_false]
  rw [hiso, hslash, hdot]
  by_cases hv : ValidDate ⟨y, m, d⟩
  · rw [if_pos hv]
    simp [firstValid, hv]
  · rw [if_neg hv]
    simp [firstValid, hv]

theorem pad2_length (n : Nat) : (pad2 n).length = 2 := by simp [pad2]

theorem parse_dateL_renderMDY {m d y : Nat} (hm : m < 100) (hd : d < 100)
    (hy : y < 10000) : parse_dateL (renderMDY m d y) =
      (if ValidDate ⟨y, m, d⟩ then some ⟨y, m, d⟩ else none) := by
  rw [renderMDY]
  exact parse_dateL_slash (min2_all_digit m) (min2_all_digit d)
    (min2_length_ge m) (min2_length_le m) (min2_length_ge d) (min2_length_le d)
    (natOfDigits_min2 hm) (natOfDigits_min2 hd) hy

theorem parse_dateL_renderDMY {d m y : Nat} (hd : d < 100) (hm : m < 100)
    (hy : y < 10000) : parse_dateL (renderDMY d m y) =
      (if ValidDate ⟨y, m, d⟩ then some ⟨y, m, d⟩ else none) := by
  rw [renderDMY]
  exact parse_dateL_dot (min2_all_digit d) (min2_all_digit m)
    (min2_length_ge d) (min2_length_le d) (min2_length_ge m) (min2_length_le m)
    (natOfDigits_min2 hd) (natOfDigits_min2 hm) hy

theorem daysInMonth_le (y m : Nat) : daysInMonth y m ≤ 31 := by
  rw [daysInMonth]
  split
  · split <;> omega
  · split <;> omega

theorem validDate_bounds {y m d : Nat} (h : ValidDate ⟨y, m, d⟩) :
    y < 10000 ∧ m < 100 ∧ d < 100 := by
  simp only [ValidDate] at h
  have := daysInMonth_le y m
  omega

/-- C5: `parse_date` returns "no date" (`none`), and never an exception,
for every sentinel input — an absent token, the empty string, a lone
dash optionally surrounded by whitespace — and for every syntactically
well-formed but calendar-invalid date in any of the three formats
(month 13, day 32, Feb 29 of a non-leap year, ...).  The resolver is a
total function into `Option`, so "never raises" holds by construction. -/
theorem claim_C5 :
    parse_date none = none ∧
    parse_date (some []) = none ∧
    (∀ w1 w2 : Chars, (∀ c ∈ w1, isWS c = true) → (∀ c ∈ w2, isWS c = true) →
      parse_date (some (w1 ++ '-' :: w2)) = none) ∧
    (∀ y m d : Nat, y < 10000 → m < 100 → d < 100 → ¬ ValidDate ⟨y, m, d⟩ →
      parse_date (some (renderISO y m d)) = none ∧
      parse_date (some (renderMDY m d y)) = none ∧
      parse_date (some (renderDMY d m y)) = none) := by
  refine ⟨rfl, rfl, ?_, ?_⟩
  · intro w1 w2 h1 h2
    simp only [parse_date]
    rw [parse_dateL]
    simp [sentinelNoDate, trimL_ws_dash h1 h2]
  · intro y m d hy hm hd hinv
    refine ⟨?_, ?_, ?_⟩
    · simp only [parse_date]
      rw [parse_dateL_renderISO hy hm hd, if_neg hinv]
    · simp only [parse_date]
      rw [parse_dateL_renderMDY hm hd hy, if_neg hinv]
    · simp only [parse_date]
      rw [parse_dateL_renderDMY hd hm hy, if_neg hinv]

/-- Witness for C5 at concrete inputs: a whitespace-surrounded dash and
the non-leap-year date 02/29/2023 both resolve to "no date". -/
theorem claim_C5_witness :
    parse_date (some ([' '] ++ '-' :: [' '])) = none ∧
    parse_date (some (renderMDY 2 29 2023)) = none :=
  ⟨claim_C5.2.2.1 [' '] [' '] (by decide) (by decide),
    (claim_C5.2.2.2 2023 2 29 (by decide) (by decide) (by decide) (by decide)).2.1⟩

/-- C6: format-independence of the date resolver — for every valid
calendar date, parsing its ISO `YYYY-MM-DD` text, its slash
`MM/DD/YYYY` text (minimal one/two-digit and zero-padded month/day
alike) and its dot `DD.MM.YYYY` text (likewise) yields the same
canonical date. -/
theorem claim_C6 (y m d : Nat) (h : ValidDate ⟨y, m, d⟩) :
    parse_date (some (renderISO y m d)) = some ⟨y, m, d⟩ ∧
    parse_date (some (renderMDY m d y)) = some ⟨y, m, d⟩ ∧
    parse_date (some (pad2 m ++ '/' :: (pad2 d ++ '/' :: pad4 y))) = some ⟨y, m, d⟩ ∧
    parse_date (some (renderDMY d m y)) = some ⟨y, m, d⟩ ∧
    parse_date (some (pad2 d ++ '.' :: (pad2 m ++ '.' :: pad4 y))) = some ⟨y, m, d⟩ := by
  obtain ⟨hy, hm, hd⟩ := validDate_bounds h
  refine ⟨?_, ?_, ?_, ?_, ?_⟩
  · simp only [parse_date]
    rw [parse_dateL_renderISO hy hm hd, if_pos h]
  · simp only [parse_date]
    rw [parse_dateL_renderMDY hm hd hy, if_pos h]
  · simp only [parse_date]
    rw [parse_dateL_slash (pad2_all_digit m) (pad2_all_digit d)
      (by rw [pad2_length]; omega) (by rw [pad2_length]) (by rw [pad2_length]; omega)
      (by rw [pad2_length]) (natOfDigits_pad2 hm) (natOfDigits_pad2 hd) hy,
      if_pos h]
  · simp only [parse_date]
    rw [parse_dateL_renderDMY hd hm hy, if_pos h]
  · simp only [parse_date]
    rw [parse_dateL_dot (pad2_all_digit d) (pad2_all_digit m)
      (by rw [pad2_length]; omega) (by rw [pad2_length]) (by rw [pad2_length]; omega)
      (by rw [pad2_length]) (natOfDigits_pad2 hd) (natOfDigits_pad2 hm) hy,
      if_pos h]

/-- Witness for C6 at the concrete date 2024-01-15. -/
theorem claim_C6_witness :
    parse_date (some (renderISO 2024 1 15)) = some ⟨2024, 1, 15⟩ ∧
    parse_date (some (renderMDY 1 15 2024)) = some ⟨2024, 1, 15⟩ ∧
    parse_date (some (pad2 1 ++ '/' :: (pad2 15 ++ '/' :: pad4 2024))) = some ⟨2024, 1, 15⟩ ∧
    parse_date (some (renderDMY 15 1 2024)) = some ⟨2024, 1, 15⟩ ∧
    parse_date (some (pad2 15 ++ '.' :: (pad2 1 ++ '.' :: pad4 2024))) = some ⟨2024, 1, 15⟩ :=
  claim_C6 2024 1 15 (by decide)

/-- C4: status matching is case-insensitive and tries every multi-word
phrase before the bare `normal`; a line containing any multi-word
phrase (case-insensitively) always yields that family's multi-word tag
and never the bare `NORMAL` tag. -/
theorem claim_C4 (l : Chars)
    (h : ∃ p ∈ multiStatusPhrases, containsL p (lowerS l) = true) :
    (∃ t ∈ multiStatusTags, extractStatus l = some t) ∧
    extractStatus l ≠ some (str ("NORMAL")) := by
  by_cases b1 : containsL (str ("above normal")) (lowerS l) = true
  · have he : extractStatus l = some (str ("ABOVE_NORMAL")) := by
      simp [extractStatus, statusTable, List.find?, b1]
    exact ⟨⟨str ("ABOVE_NORMAL"), by decide, he⟩, by rw [he]; decide⟩
  by_cases b2 : containsL (str ("below normal")) (lowerS l) = true
  · have he : extractStatus l = some (str ("BELOW_NORMAL")) := by
      simp [extractStatus, statusTable, List.find?, b1, b2]
    exact ⟨⟨str ("BELOW_NORMAL"), by decide, he⟩, by rw [he]; decide⟩
  by_cases b3 : containsL (str ("critically low")) (lowerS l) = true
  · have he : extractStatus l = some (str ("CRITICALLY_LOW")) := by
      simp [extractStatus, statusTable, List.find?, b1, b2, b3]
    exact ⟨⟨str ("CRITICALLY_LOW"), by decide, he⟩, by rw [he]; decide⟩
  by_cases b4 : containsL (str ("critically high")) (lowerS l) = true
  · have he : extractStatus l = some (str ("CRITICALLY_HIGH")) := by
      simp [extractStatus, statusTable, List.find?, b1, b2, b3, b4]
    exact ⟨⟨str ("CRITICALLY_HIGH"), by decide, he⟩, by rw [he]; decide⟩
  by_cases b5 : containsL (str ("slightly low")) (lowerS l) = true
  · have he : extractStatus l = some (str ("SLIGHTLY_LOW")) := by
      simp [extractStatus, statusTable, List.find?, b1, b2, b3, b4, b5]
    exact ⟨⟨str ("SLIGHTLY_LOW"), by decide, he⟩, by rw [he]; decide⟩
  by_cases b6 : containsL (str ("slightly high")) (lowerS l) = true
  · have he : extractStatus l = some (str ("SLIGHTLY_HIGH")) := by
      simp [extractStatus, statusTable, List.find?, b1, b2, b3, b4, b5, b6]
    exact ⟨⟨str ("SLIGHTLY_HIGH"), by decide, he⟩, by rw [he]; decide⟩
  exfalso
  rcases h with ⟨p, hp, hc⟩
  fin_cases hp
  · exact b1 hc
  · exact b2 hc
  · exact b3 hc
  · exact b4 hc
  · exact b5 hc
  · exact b6 hc

/-- Witness for C4 on the unit test's line with `Above Normal`. -/
theorem claim_C4_witness :
    (∃ t ∈ multiStatusTags,
      extractStatus (str ("K     500 mg/l Above Normal")) = some t) ∧
    extractStatus (str ("K     500 mg/l Above Normal")) ≠ some (str ("NORMAL")) :=
  claim_C4 (str ("K     500 mg/l Above Normal"))
    ⟨str ("above normal"), by decide, by decide⟩

/-- C7: whenever the first numeric-looking token of an element line is
the dash sentinel, the scanner returns no value while the status of the
same line is still returned; end-to-end, the `Pb --- ug/l Normal` line
of a report yields a record with no `pb` element value but with the
`pb` status `NORMAL`. -/
theorem claim_C7 :
    (∀ l t : Chars, firstNumTok l = some t → isDashRun t = true →
      extract_value_and_status l = (none, extractStatus l)) ∧
    extract_value_and_status (str ("Hg    --- ug/l Normal")) =
      (none, some (str ("NORMAL"))) ∧
    (parseRecs (parse_ati_pdf docDashes (str ("/fake/test.pdf")))).map
      (fun r => (List.lookup (str ("pb")) r.elements,
        List.lookup (str ("pb")) r.statuses)) =
      [(none, some (str ("NORMAL")))] := by
  refine ⟨?_, by decide, by decide⟩
  intro l t h1 h2
  simp [extract_value_and_status, extractValue, h1, h2]

/-- Witness for C7 on the unit test's `Hg    --- ug/l Normal` line. -/
theorem claim_C7_witness :
    extract_value_and_status (str ("Hg    --- ug/l Normal")) =
      (none, extractStatus (str ("Hg    --- ug/l Normal"))) :=
  claim_C7.1 (str ("Hg    --- ug/l Normal")) (str ("---")) (by decide) (by decide)

theorem splitOnP_ne_nil (p : Char → Bool) (l : Chars) : splitOnP p l ≠ [] := by
  cases l with
  | nil => simp [splitOnP]
  | cons c t =>
    rw [splitOnP]
    by_cases h : p c = true
    · simp [h]
    · simp only [h]
      cases splitOnP p t <;> simp

theorem extractValue_code_digit {c1 c2 c3 : Char} (rest : Chars)
    (h1 : c1.isDigit = false) (h2 : c2.isDigit = false) (h3 : c3.isDigit = true)
    (hw1 : isWS c1 = false) (hw2 : isWS c2 = false) :
    extractValue (c1 :: c2 :: c3 :: ' ' :: rest) = some ((digitVal c3 : ℚ)) := by
  obtain ⟨h0, r0, hsplit⟩ : ∃ h0 r0, splitOnP isWS rest = h0 :: r0 := by
    cases hs : splitOnP isWS rest with
    | nil => exact absurd hs (splitOnP_ne_nil isWS rest)
    | cons h0 r0 => exact ⟨h0, r0, rfl⟩
  have hw3 : isWS c3 = false := isWS_false_of_isDigit h3
  have hsp : splitOnP isWS (c1 :: c2 :: c3 :: ' ' :: rest) =
      [c1, c2, c3] :: h0 :: r0 := by
    rw [splitOnP, splitOnP, splitOnP, splitOnP]
    rw [hw1, hw2, hw3, (show isWS ' ' = true by decide), hsplit]
    simp
  have hnum : numericLooking [c1, c2, c3] = true := by
    simp [numericLooking, isDashRun, h3]
  have hfirst : firstNumTok (c1 :: c2 :: c3 :: ' ' :: rest) = some [c1, c2, c3] := by
    rw [firstNumTok, tokensOf, hsp]
    rw [List.filter_cons_of_pos (by simp)]
    rw [List.find?_cons_of_pos _ hnum]
  have hdash : isDashRun [c1, c2, c3] = false := by
    have hne : c3 ≠ '-' := ne_of_digit_nondigit h3 (by decide)
    simp [isDashRun, hne]
  have hval : scanNumberCore (c1 :: c2 :: c3 :: ' ' :: rest) =
      some ((digitVal c3 : ℚ)) := by
    rw [scanNumberCore]
    simp only [h1, Bool.false_eq_true, if_false]
    rw [scanNumberCore]
    simp only [h2, Bool.false_eq_true, if_false]
    rw [scanNumberCore]
    simp only [h3, if_true]
    have hip : takeDigits (c3 :: ' ' :: rest) = ([c3], ' ' :: rest) := by
      rw [takeDigits_cons_digit _ h3, takeDigits_cons_nondigit _ (by decide)]
    have hfp : fracPart (' ' :: rest) = ([], ' ' :: rest) := by
      rw [fracPart, if_neg (by decide)]
    have hep : expPart (' ' :: rest) = (false, []) := by
      simp [expPart.eq_def, (show ¬(' ' = 'e' ∨ ' ' = 'E') by decide)]
    simp only [hip, hfp, hep]
    simp [numFromParts, natOfDigits_one, natOfDigits]
  rw [extractValue, hfirst]
  simp only [hdash, Bool.false_eq_true, if_false]
  exact hval

/-- C10: an element code that itself embeds a digit (`NO3`, `PO4`)
supplies the first digit group of the line from its own name, so the
scanner reports the code-name digit rather than the measured
concentration, for every tail of the line; a digit-free code (`P`)
yields the measured value; end-to-end the `no3`/`po4` keys carry the
code-name digit while `p` carries `0.02`. -/
theorem claim_C10 :
    (∀ rest : Chars,
      (extract_value_and_status ('N' :: 'O' :: '3' :: ' ' :: rest)).1 = some 3) ∧
    (∀ rest : Chars,
      (extract_value_and_status ('P' :: 'O' :: '4' :: ' ' :: rest)).1 = some 4) ∧
    extract_value_and_status (str ("NO3           2.5 mg/l Normal")) =
      (some 3, some (str ("NORMAL"))) ∧
    extract_value_and_status (str ("P             0.02 mg/l Normal")) =
      (some (mkRat 1 50), some (str ("NORMAL"))) ∧
    (parseRecs (parse_ati_pdf docNutrients (str ("/fake/test.pdf")))).map
      (fun r => (List.lookup (str ("no3")) r.elements,
        List.lookup (str ("po4")) r.elements,
        List.lookup (str ("p")) r.elements)) =
      [(some 3, some 4, some (mkRat 1 50))] := by
  refine ⟨?_, ?_, by decide, by decide, by decide⟩
  · intro rest
    have h := @extractValue_code_digit 'N' 'O' '3' rest
      (by decide) (by decide) (by decide) (by decide) (by decide)
    rw [extract_value_and_status]
    rw [h, (show digitVal '3' = 3 by decide)]
    norm_num
  · intro rest
    have h := @extractValue_code_digit 'P' 'O' '4' rest
      (by decide) (by decide) (by decide) (by decide) (by decide)
    rw [extract_value_and_status]
    rw [h, (show digitVal '4' = 4 by decide)]
    norm_num

/-- Witness for C10: the `NO3` line of the sample report, with its
actual tail, yields the code-name digit as the value. -/
theorem claim_C10_witness :
    (extract_value_and_status
      ('N' :: 'O' :: '3' :: ' ' :: str ("          2.5 mg/l Normal"))).1 = some 3 :=
  claim_C10.1 (str ("          2.5 mg/l Normal"))

/-! ## Lemmas for the score scanner characterisation -/

theorem scoreHere_nil (label : Chars) : scoreHere label [] = none := by
  cases label with
  | nil => rfl
  | cons c t => rfl

theorem findScoreL_some_iff (label : Chars) : ∀ (l : Chars) (n : Nat),
    findScoreL label l = some n ↔
      ∃ k, scoreHere label (l.drop k) = some n ∧
        ∀ j < k, scoreHere label (l.drop j) = none := by
  intro l
  induction l with
  | nil =>
    intro n
    constructor
    · intro h
      rw [findScoreL] at h
      cases h
    · rintro ⟨k, hk, -⟩
      rw [List.drop_nil, scoreHere_nil] at hk
      cases hk
  | cons c t ih =>
    intro n
    cases hs : scoreHere label (c :: t) with
    | some m =>
      rw [findScoreL, hs]
      constructor
      · intro h
        refine ⟨0, ?_, ?_⟩
        · rw [List.drop_zero, hs]
          exact h
        · intro j hj
          omega
      · rintro ⟨k, hk, hall⟩
        cases k with
        | zero =>
          rw [List.drop_zero, hs] at hk
          exact hk
        | succ k' =>
          have h0 := hall 0 (Nat.succ_pos k')
          rw [List.drop_zero, hs] at h0
          cases h0
    | none =>
      rw [findScoreL, hs]
      rw [ih n]
      constructor
      · rintro ⟨k, hk, hall⟩
        refine ⟨k + 1, ?_, ?_⟩
        · rw [List.drop_succ_cons]
          exact hk
        · intro j hj
          cases j with
          | zero =>
            rw [List.drop_zero]
            exact hs
          | succ j' =>
            rw [List.drop_succ_cons]
            exact hall j' (by omega)
      · rintro ⟨k, hk, hall⟩
        cases k with
        | zero =>
          rw [List.drop_zero, hs] at hk
          cases hk
        | succ k' =>
          refine ⟨k', ?_, ?_⟩
          · rw [List.drop_succ_cons] at hk
            exact hk
          · intro j hj
            have := hall (j + 1) (by omega)
            rw [List.drop_succ_cons] at this
            exact this

theorem findScoreL_none_iff (label : Chars) : ∀ l : Chars,
    findScoreL label l = none ↔
      ∀ k, scoreHere label (l.drop k) = none := by
  intro l
  induction l with
  | nil =>
    constructor
    · intro h k
      rw [List.drop_nil, scoreHere_nil]
    · intro h
      rw [findScoreL]
  | cons c t ih =>
    cases hs : scoreHere label (c :: t) with
    | some m =>
      rw [findScoreL, hs]
      constructor
      · intro h
        cases h
      · intro hall
        have h0 := hall 0
        rw [List.drop_zero, hs] at h0
        cases h0
    | none =>
      rw [findScoreL, hs, ih]
      constructor
      · intro hall k
        cases k with
        | zero =>
          rw [List.drop_zero]
          exact hs
        | succ k' =>
          rw [List.drop_succ_cons]
          exact hall k'
      · intro hall k
        have := hall (k + 1)
        rw [List.drop_succ_cons] at this
        exact this

/-- C8: `extract_score` returns the integer of the first position where
the full pattern — the label, an optional colon, whitespace, then an
integer — matches case-insensitively (so a label appearing twice yields
the first value), returns `none` exactly when the pattern never matches
anywhere, and returns `some 0` (not `none`) for a present score of
zero. -/
theorem claim_C8 (text label : Chars) :
    (∀ n : Nat, extract_score text label = some n ↔
      ∃ k, scoreHere (lowerS label) ((lowerS text).drop k) = some n ∧
        ∀ j < k, scoreHere (lowerS label) ((lowerS text).drop j) = none) ∧
    (extract_score text label = none ↔
      ∀ k, scoreHere (lowerS label) ((lowerS text).drop k) = none) ∧
    extract_score (str ("Pollutants: 0")) (str ("Pollutants")) = some 0 := by
  refine ⟨?_, ?_, by decide⟩
  · intro n
    rw [extract_score]
    exact findScoreL_some_iff (lowerS label) (lowerS text) n
  · rw [extract_score]
    exact findScoreL_none_iff (lowerS label) (lowerS text)

/-- Witness for C8: on the unit test's duplicated-label block the first
match wins, via the characterisation at the concrete first position. -/
theorem claim_C8_witness :
    extract_score (str ("Major Elements: 80\nSomething else\nMajor Elements: 92"))
      (str ("Major Elements")) = some 80 :=
  ((claim_C8 (str ("Major Elements: 80\nSomething else\nMajor Elements: 92"))
      (str ("Major Elements"))).1 80).mpr
    ⟨0, by decide, fun j hj => absurd hj (Nat.not_lt_zero j)⟩

/-! ## Lemmas for the validator -/

theorem startsWithL_self_append (a b : Chars) : startsWithL a (a ++ b) = true := by
  induction a with
  | nil => rfl
  | cons c t ih => simp [startsWithL, ih]

theorem containsL_append_self (x a y : Chars) :
    containsL a (x ++ (a ++ y)) = true := by
  induction x with
  | nil =>
    simp only [List.nil_append]
    cases hay : a ++ y with
    | nil =>
      have ha : a = [] := by
        cases a with
        | nil => rfl
        | cons c t => cases hay
      rw [ha]
      rfl
    | cons c t =>
      rw [containsL, ← hay, startsWithL_self_append]
      rfl
  | cons c t ih =>
    rw [List.cons_append, containsL, ih]
    simp

/-- C3: the validator rejects a record missing `lab_name`/`test_date`
with an error naming the missing field(s); with both present it rejects
exactly the records with zero populated element entries (a single value
or a single status suffices to pass), and that error names the record's
water type, or "unknown" when the water type is unset. -/
theorem claim_C3 (r : ParsedRecord) :
    (r.lab_name = none → validate_parsed_data r ≠ Except.ok () ∧
      containsL (str ("lab_name")) (errMsgOf (validate_parsed_data r)) = true) ∧
    (r.test_date = none → validate_parsed_data r ≠ Except.ok () ∧
      containsL (str ("test_date")) (errMsgOf (validate_parsed_data r)) = true) ∧
    (r.lab_name ≠ none → r.test_date ≠ none →
      ((validate_parsed_data r = Except.ok ()) ↔ populatedCount r ≠ 0) ∧
      (populatedCount r = 0 →
        containsL ((r.water_type).getD (str ("unknown")))
          (errMsgOf (validate_parsed_data r)) = true)) := by
  refine ⟨?_, ?_, ?_⟩
  · intro hl
    have hmiss : ¬ ((requiredMissing r).isEmpty = true) := by
      simp [requiredMissing, hl]
    rw [validate_parsed_data, if_neg hmiss]
    refine ⟨by simp, ?_⟩
    rw [errMsgOf]
    cases htd : r.test_date with
    | none =>
      have he : requiredMissing r = [str ("lab_name"), str ("test_date")] := by
        simp [requiredMissing, hl, htd]
      rw [he]
      decide
    | some d =>
      have he : requiredMissing r = [str ("lab_name")] := by
        simp [requiredMissing, hl, htd]
      rw [he]
      decide
  · intro ht
    have hmiss : ¬ ((requiredMissing r).isEmpty = true) := by
      simp [requiredMissing, ht]
    rw [validate_parsed_data, if_neg hmiss]
    refine ⟨by simp, ?_⟩
    rw [errMsgOf]
    cases hlb : r.lab_name with
    | none =>
      have he : requiredMissing r = [str ("lab_name"), str ("test_date")] := by
        simp [requiredMissing, hlb, ht]
      rw [he]
      decide
    | some a =>
      have he : requiredMissing r = [str ("test_date")] := by
        simp [requiredMissing, hlb, ht]
      rw [he]
      decide
  · intro hl ht
    obtain ⟨a, ha⟩ := Option.ne_none_iff_exists'.mp hl
    obtain ⟨b, hb⟩ := Option.ne_none_iff_exists'.mp ht
    have hmiss : (requiredMissing r).isEmpty = true := by
      simp [requiredMissing, ha, hb]
    rw [validate_parsed_data, if_pos hmiss]
    by_cases hp : populatedCount r = 0
    · rw [if_pos hp]
      refine ⟨iff_of_false (by simp) (not_not_intro hp), ?_⟩
      intro h0
      rw [errMsgOf, List.append_assoc]
      exact containsL_append_self _ _ _
    · rw [if_neg hp]
      exact ⟨iff_of_true rfl hp, fun h0 => absurd h0 hp⟩

/-- Witness for C3: a record missing `lab_name` is rejected with a
message naming it; a record with a single status entry passes; a record
with zero element entries and water type `ro_water` is rejected with a
message containing `ro_water`. -/
theorem claim_C3_witness :
    (validate_parsed_data { emptyRecord with
        test_date := some ⟨2024, 1, 15⟩,
        elements := [(str ("ca"), 420)] } ≠ Except.ok () ∧
      containsL (str ("lab_name")) (errMsgOf (validate_parsed_data
        { emptyRecord with
          test_date := some ⟨2024, 1, 15⟩,
          elements := [(str ("ca"), 420)] })) = true) ∧
    ((validate_parsed_data { emptyRecord with
        lab_name := some (str ("ATI Aquaristik")),
        test_date := some ⟨2024, 1, 15⟩,
        statuses := [(str ("ca"), str ("NORMAL"))] } = Except.ok ()) ↔
      populatedCount { emptyRecord with
        lab_name := some (str ("ATI Aquaristik")),
        test_date := some ⟨2024, 1, 15⟩,
        statuses := [(str ("ca"), str ("NORMAL"))] } ≠ 0) ∧
    containsL (((some (str ("ro_water")) : Option Chars)).getD (str ("unknown")))
      (errMsgOf (validate_parsed_data { emptyRecord with
        lab_name := some (str ("ATI Aquaristik")),
        test_date := some ⟨2024, 1, 15⟩,
        water_type := some (str ("ro_water")) })) = true :=
  ⟨(claim_C3 _).1 rfl,
    ((claim_C3 _).2.2 (by decide) (by decide)).1,
    ((claim_C3 { emptyRecord with
        lab_name := some (str ("ATI Aquaristik")),
        test_date := some ⟨2024, 1, 15⟩,
        water_type := some (str ("ro_water")) }).2.2
      (by decide) (by decide)).2 rfl⟩

/-! ## Lemmas for the segmenter and the orchestrator -/

theorem splitAtHeader_append (ls : List Chars) :
    (splitAtHeader ls).1 ++ (splitAtHeader ls).2 = ls := by
  induction ls with
  | nil => rfl
  | cons l t ih =>
    by_cases h : (sectionTypeOf l).isSome <;> simp [splitAtHeader, h, ih]

theorem splitAtHeader_fst_no_header (ls : List Chars) :
    ∀ x ∈ (splitAtHeader ls).1, (sectionTypeOf x).isSome = false := by
  induction ls with
  | nil => intro x hx; cases hx
  | cons l t ih =>
    by_cases h : (sectionTypeOf l).isSome = true
    · simp [splitAtHeader, h]
    · intro x hx
      simp only [splitAtHeader, h] at hx
      simp only [Bool.false_eq_true, if_false] at hx
      rcases List.mem_cons.mp hx with rfl | hx'
      · simpa using h
      · exact ih x hx'

theorem segmentsFuel_length : ∀ (fuel : Nat) (ls : List Chars), ls.length ≤ fuel →
    (segmentsFuel fuel ls).length =
      (ls.filter (fun l => (sectionTypeOf l).isSome)).length := by
  intro fuel
  induction fuel with
  | zero =>
    intro ls hls
    have hnil : ls = [] := List.eq_nil_of_length_eq_zero (by omega)
    subst hnil
    rfl
  | succ f ih =>
    intro ls hls
    cases ls with
    | nil => rfl
    | cons l t =>
      rw [segmentsFuel]
      cases hty : sectionTypeOf l with
      | some wt =>
        have hsplit := splitAtHeader_append t
        have hlen2 : (splitAtHeader t).2.length ≤ f := by
          have hlen := congrArg List.length hsplit
          simp only [List.length_append] at hlen
          simp only [List.length_cons] at hls
          omega
        have hrec := ih (splitAtHeader t).2 hlen2
        have hfil1 : (splitAtHeader t).1.filter
            (fun l => (sectionTypeOf l).isSome) = [] := by
          rw [List.filter_eq_nil_iff]
          intro x hx
          simp [splitAtHeader_fst_no_header t x hx]
        have hfilt : t.filter (fun l => (sectionTypeOf l).isSome) =
            (splitAtHeader t).2.filter (fun l => (sectionTypeOf l).isSome) := by
          conv_lhs => rw [← hsplit]
          rw [List.filter_append, hfil1, List.nil_append]
        rw [List.filter_cons_of_pos (by simp [hty])]
        simp only [List.length_cons]
        rw [hrec, ← hfilt]
      | none =>
        have hrec := ih t (by simp only [List.length_cons] at hls; omega)
        rw [List.filter_cons_of_neg (by simp [hty])]
        exact hrec

theorem segments_length (ls : List Chars) :
    (segments ls).length =
      (ls.filter (fun l => (sectionTypeOf l).isSome)).length :=
  segmentsFuel_length ls.length ls (Nat.le_refl _)

theorem sectionsOf_cases (text : Chars) :
    (headerCount text = 0 ∧
      sectionsOf text = [(str ("saltwater"), splitLines text)]) ∨
    (1 ≤ headerCount text ∧ sectionsOf text = segments (splitLines text)) := by
  cases hseg : segments (splitLines text) with
  | nil =>
    left
    constructor
    · rw [headerCount, ← segments_length, hseg]
      rfl
    · rw [sectionsOf, hseg]
  | cons s ss =>
    right
    constructor
    · rw [headerCount, ← segments_length, hseg]
      simp
    · rw [sectionsOf, hseg]

theorem parse_ok_recs {text path : Chars} {recs : List ParsedRecord}
    (h : parse_ati_pdf text path = Except.ok recs) :
    ∃ td, resolveTestDate text (baseNameOf path) = some td ∧
      recs = (sectionsOf text).map (fun s => buildRecord text td s.1 s.2) := by
  rw [parse_ati_pdf] at h
  split at h
  next heq => cases h
  next td heq =>
    split at h
    next e heq2 => cases h
    next u heq2 =>
      injection h with h2
      exact ⟨td, heq, h2.symm⟩

/-- C1: the shared `test_date` is resolved by the cascade — explicit
test date, else evaluated date, else the first date-shaped token in the
whole document text, else a `YYYY-MM-DD` prefix of the file's base name
— and when the cascade yields nothing the whole parse fails with the
structural error and no record list; there is no clock anywhere in the
parser, so the current date is never substituted. -/
theorem claim_C1 (text path : Chars) :
    resolveTestDate text (baseNameOf path) =
      ((labeledDate (str ("test date")) text).orElse (fun _ =>
        (labeledDate (str ("evaluated")) text).orElse (fun _ =>
          (parse_dateL text).orElse (fun _ => fileNameDate (baseNameOf path))))) ∧
    (∀ d recs, resolveTestDate text (baseNameOf path) = some d →
      parse_ati_pdf text path = Except.ok recs →
        ∀ r ∈ recs, r.test_date = some d) ∧
    (resolveTestDate text (baseNameOf path) = none →
      parse_ati_pdf text path =
        Except.error (str ("Could not extract test date from PDF"))) := by
  refine ⟨?_, ?_, ?_⟩
  · rw [resolveTestDate]
    cases labeledDate (str ("test date")) text <;>
      cases labeledDate (str ("evaluated")) text <;>
      cases parse_dateL text <;>
      simp [Option.orElse]
  · intro d recs hres hok
    obtain ⟨td, hres2, hrecs⟩ := parse_ok_recs hok
    rw [hres] at hres2
    injection hres2 with htd
    subst hrecs
    intro r hr
    rw [List.mem_map] at hr
    obtain ⟨s, hs, rfl⟩ := hr
    rw [← htd]
    rfl
  · intro hres
    rw [parse_ati_pdf, hres]

/-- Witness for C1: a document with no date in its body or file name
fails with the structural error. -/
theorem claim_C1_witness :
    parse_ati_pdf docNoDate (str ("/fake/no_date.pdf")) =
      Except.error (str ("Could not extract test date from PDF")) :=
  (claim_C1 docNoDate (str ("/fake/no_date.pdf"))).2.2 (by decide)

/-- C2: a successfully parsed document with `N ≥ 1` section headers
yields exactly `N` records; with no header it yields exactly one
record tagged saltwater; every record carries the document-scoped
metadata (`lab_name`, `test_id`, the three candidate dates, the
resolved `test_date`) while the `water_type` follows each record's own
section. -/
theorem claim_C2 (text path : Chars) (recs : List ParsedRecord)
    (h : parse_ati_pdf text path = Except.ok recs) :
    (1 ≤ headerCount text → recs.length = headerCount text) ∧
    (headerCount text = 0 → recs.length = 1 ∧
      ∀ r ∈ recs, r.water_type = some (str ("saltwater"))) ∧
    recs.map (fun r => r.water_type) =
      (sectionsOf text).map (fun s => some s.1) ∧
    (∀ r ∈ recs, r.lab_name = some (str ("ATI Aquaristik")) ∧
      r.test_id = docTestId text ∧
      r.sample_date = labeledDate (str ("created")) text ∧
      r.received_date = labeledDate (str ("arrived in the laboratory")) text ∧
      r.evaluated_date = labeledDate (str ("evaluated")) text ∧
      r.test_date = resolveTestDate text (baseNameOf path)) := by
  obtain ⟨td, hres, hrecs⟩ := parse_ok_recs h
  subst hrecs
  refine ⟨?_, ?_, ?_, ?_⟩
  · intro hge
    rcases sectionsOf_cases text with ⟨h0, hsec⟩ | ⟨h1, hsec⟩
    · omega
    · rw [List.length_map, hsec, segments_length, headerCount]
  · intro h0
    rcases sectionsOf_cases text with ⟨h0', hsec⟩ | ⟨h1, hsec⟩
    · rw [hsec]
      refine ⟨rfl, ?_⟩
      intro r hr
      rcases List.mem_singleton.mp (by simpa using hr) with rfl
      rfl
    · omega
  · rw [List.map_map]
    rfl
  · intro r hr
    rw [List.mem_map] at hr
    obtain ⟨s, hs, rfl⟩ := hr
    refine ⟨rfl, rfl, rfl, rfl, rfl, ?_⟩
    rw [hres]
    rfl

/-- Witness for C2 on a two-section document: the parse succeeds and
returns exactly as many records as there are section headers. -/
theorem claim_C2_witness :
    1 ≤ headerCount docMulti ∧
    (parseRecs (parse_ati_pdf docMulti (str ("/fake/test.pdf")))).length =
      headerCount docMulti :=
  ⟨by decide,
    (claim_C2 docMulti (str ("/fake/test.pdf"))
      (parseRecs (parse_ati_pdf docMulti (str ("/fake/test.pdf")))) rfl).1
      (by decide)⟩

/-! ## The free-text blocks (C9) -/

theorem recommendationsOf_eq (ls : List Chars) :
    recommendationsOf ls =
      nonBlank ((linesAfterMarker (str ("recommendations")) ls).getD []) := by
  cases h : linesAfterMarker (str ("recommendations")) ls <;>
    simp [recommendationsOf, h, nonBlank]

theorem forall₂_map_left {α β : Type} {R : β → α → Prop} {f : α → β} :
    ∀ {xs : List α}, (∀ x ∈ xs, R (f x) x) → List.Forall₂ R (xs.map f) xs := by
  intro xs
  induction xs with
  | nil => intro _; exact List.Forall₂.nil
  | cons x t ih =>
    intro h
    exact List.Forall₂.cons (h x (List.mem_cons_self x t))
      (ih (fun y hy => h y (List.mem_cons_of_mem x hy)))

/-- C9 counterexample: on a document whose dosing block has two
non-blank lines, the parse succeeds and the produced record carries a
single dosing entry (the joined block), not one entry per non-blank
line — so `dosing_instructions` is not "a sequence of entries, one per
non-blank line" as the claim states for it. -/
theorem claim_C9_counterexample :
    (parseRecs (parse_ati_pdf docDosing (str ("/fake/test.pdf")))).map
      (fun r => (dosingEntries r).length) = [1] ∧
    (nonBlank ((linesAfterMarker (str ("dosing instructions"))
      (splitLines docDosing)).getD [])).length = 2 ∧
    parseOk (parse_ati_pdf docDosing (str ("/fake/test.pdf"))) = true :=
  ⟨by decide, by decide, by decide⟩

/-- C9 (amended): in every record produced by `parse_ati_pdf`, the
`recommendations` field is a sequence of entries, one per non-blank
line following its marker line up to the end of the record's section;
the `dosing_instructions` field is instead a single optional free-text
entry holding the non-blank lines of its block joined together (absent
when the marker is absent or the block is blank). -/
theorem claim_C9_amended (text path : Chars) (recs : List ParsedRecord)
    (h : parse_ati_pdf text path = Except.ok recs) :
    List.Forall₂ (fun (r : ParsedRecord) (s : Chars × List Chars) =>
      r.recommendations =
        nonBlank ((linesAfterMarker (str ("recommendations")) s.2).getD []) ∧
      (r.dosing_instructions = none ∨
        ∃ t, linesAfterMarker (str ("dosing instructions")) s.2 = some t ∧
          r.dosing_instructions =
            some (intercalateL (str ("\n")) (nonBlank t))))
      recs (sectionsOf text) := by
  obtain ⟨td, hres, hrecs⟩ := parse_ok_recs h
  subst hrecs
  apply forall₂_map_left
  intro s hs
  constructor
  · exact recommendationsOf_eq s.2
  · show dosingOf s.2 = none ∨ _
    cases hm : linesAfterMarker (str ("dosing instructions")) s.2 with
    | none =>
      left
      simp [dosingOf, hm]
    | some t =>
      by_cases hnb : (nonBlank t).isEmpty = true
      · left
        rw [dosingOf, hm]
        simp only [hnb, if_true]
      · right
        refine ⟨t, rfl, ?_⟩
        show dosingOf s.2 = _
        rw [dosingOf, hm]
        simp only [hnb, Bool.false_eq_true, if_false]

/-- Witness for the amended C9 on the two-line dosing document. -/
theorem claim_C9_amended_witness :
    List.Forall₂ (fun (r : ParsedRecord) (s : Chars × List Chars) =>
      r.recommendations =
        nonBlank ((linesAfterMarker (str ("recommendations")) s.2).getD []) ∧
      (r.dosing_instructions = none ∨
        ∃ t, linesAfterMarker (str ("dosing instructions")) s.2 = some t ∧
          r.dosing_instructions =
            some (intercalateL (str ("\n")) (nonBlank t))))
      (parseRecs (parse_ati_pdf docDosing (str ("/fake/test.pdf"))))
      (sectionsOf docDosing) :=
  claim_C9_amended docDosing (str ("/fake/test.pdf"))
    (parseRecs (parse_ati_pdf docDosing (str ("/fake/test.pdf")))) rfl

end AquaScope
